import Mathlib

/-!
Shallow embedding of `src/main.py`, a Google Maps CLI search tool that
formats a location query, calls an external search collaborator, and
exports the resulting place records to a dated CSV file.

Modelling conventions:
* Python strings are `String`, Python `None`-able values are `Option`.
* Python truthiness tests (`if zip_code:`, `if distance:`, `if not results:`)
  are modelled explicitly: an empty string and the integer 0 are falsy.
* A Python dict of known keys is a structure of `Option` fields
  (`none` = key absent); `dict.get(k, d)` is `Option.getD`.
* The external collaborator call is an explicit input of type
  `Except String (List PlaceHandle)` (`Except.error` = the call raised).
* CSV cell values are carried as strings; the file contents are modelled
  as the list of rows (each a list of cells) that the writer emits, and
  `export_to_csv` returns `none` exactly when the Python function returns
  `None` without creating a file.
* The current date (`datetime.now().strftime("%Y%m%d")`) is passed in as
  an explicit `date_stamp` argument.
-/

/-- Python truthiness of an optional string: `None` and `""` are falsy. -/
def pyStrTruthy : Option String → Bool
  | none => false
  | some s => !(s == "")

/-- Python truthiness of an optional integer: `None` and `0` are falsy. -/
def pyIntTruthy : Option Int → Bool
  | none => false
  | some n => !(n == 0)

/-- Python regex `\w`, as used by `re.sub(r'[^\w\-]', '', filename)` in
`sanitize_filename` (main.py line 30): Unicode alphanumerics plus the
underscore.  The embedding models this classification on the Unicode
fragment this development evaluates: the ASCII range (`[A-Za-z0-9_]`),
the Latin-1 supplement letters (U+00AA, U+00B5, U+00BA, U+00C0-U+00D6,
U+00D8-U+00F6, U+00F8-U+00FF), and the Latin Extended-A letters
(U+0100-U+017F); the combining diacritical marks (U+0300-U+036F) are
category Mn, which Python's `\w` does NOT match.  Outside this fragment
the model returns `false`, so every general theorem below restricts
query strings to the ASCII range, on which the model is exactly
Python's `\w`. -/
def isWordChar (c : Char) : Bool :=
  (65 ≤ c.toNat && c.toNat ≤ 90) || (97 ≤ c.toNat && c.toNat ≤ 122) ||
  (48 ≤ c.toNat && c.toNat ≤ 57) || c.toNat == 95 ||
  c.toNat == 170 || c.toNat == 181 || c.toNat == 186 ||
  (192 ≤ c.toNat && c.toNat ≤ 214) || (216 ≤ c.toNat && c.toNat ≤ 246) ||
  (248 ≤ c.toNat && c.toNat ≤ 255) || (256 ≤ c.toNat && c.toNat ≤ 383)

/-- Characters kept by `re.sub(r'[^\w\-]', '', filename)`: word characters
and the hyphen. -/
def keepChar (c : Char) : Bool :=
  isWordChar c || c == '-'

/-- `filename.replace(' ', '-')` (main.py line 28). -/
def replaceSpaces (s : List Char) : List Char :=
  s.map (fun c => if c == ' ' then '-' else c)

/-- `re.sub(r'[^\w\-]', '', filename)` (main.py line 30). -/
def removeSpecial (s : List Char) : List Char :=
  s.filter keepChar

/-- Python `str.lower()` (main.py line 32) on one character, returned as
the character list of its full lowercase mapping: Unicode lowercasing
can expand one character to several.  Faithful to Python on the Unicode
fragment this development evaluates: the ASCII range (`A-Z` map to
`a-z`), the Latin-1 supplement (U+00C0-U+00DE shift by 0x20 except the
multiplication sign U+00D7; the rest, including `ß` U+00DF, are
unchanged), and U+0130 (LATIN CAPITAL LETTER I WITH DOT ABOVE, whose
full lowercase mapping is `i` followed by the combining dot above
U+0307); identity elsewhere.  Every general theorem below restricts
query strings to the ASCII range, on which this model is exactly
Python's `str.lower`. -/
def pyLowerChar (c : Char) : List Char :=
  if 65 ≤ c.toNat ∧ c.toNat ≤ 90 then [Char.ofNat (c.toNat + 32)]
  else if c.toNat = 304 then ['i', Char.ofNat 775]
  else if (192 ≤ c.toNat ∧ c.toNat ≤ 222) ∧ c.toNat ≠ 215 then [Char.ofNat (c.toNat + 32)]
  else [c]

/-- `filename.lower()` (main.py line 32): the concatenation of the
per-character lowercase mappings. -/
def lowerAll (s : List Char) : List Char :=
  s.flatMap pyLowerChar

/-- Worker for `re.sub(r'-+', '-', filename)` (main.py line 34): the flag
records whether the previous emitted character closed a hyphen run. -/
def collapseAux : Bool → List Char → List Char
  | _, [] => []
  | prev, c :: rest =>
    if c == '-' then
      if prev then collapseAux true rest else '-' :: collapseAux true rest
    else
      c :: collapseAux false rest

/-- `re.sub(r'-+', '-', filename)`: collapse each run of hyphens to one. -/
def collapseHyphens (s : List Char) : List Char :=
  collapseAux false s

/-- `filename.strip('-')` (main.py line 36): drop leading and trailing
hyphens. -/
def stripHyphens (s : List Char) : List Char :=
  ((s.dropWhile (fun c => c == '-')).reverse.dropWhile (fun c => c == '-')).reverse

/-- The five sanitization stages of `sanitize_filename` (main.py 22-37)
on the character list of the input. -/
def sanitizeChars (s : List Char) : List Char :=
  stripHyphens (collapseHyphens (lowerAll (removeSpecial (replaceSpaces s))))

/-- `sanitize_filename` (main.py lines 22-37). -/
def sanitize_filename (s : String) : String :=
  String.mk (sanitizeChars s.data)

/-- `format_location_query` (main.py lines 40-54).  Python's `if zip_code:`
and `if distance:` are truthiness tests, so an empty zip string and a zero
distance take the falsy branch. -/
def format_location_query (base_query : String) (zip_code : Option String)
    (distance : Option Int) : String :=
  if pyStrTruthy zip_code then
    if pyIntTruthy distance then
      base_query ++ " within " ++ toString (distance.getD 0) ++ " miles of "
        ++ zip_code.getD ""
    else
      base_query ++ " near " ++ zip_code.getD ""
  else
    base_query

/-- The `'Hours'` sub-dict of a place's `open_hours`: one optional entry
per weekday name (`none` = key absent, read back with `.get(day, '')`). -/
structure WeekHours where
  monday : Option String
  tuesday : Option String
  wednesday : Option String
  thursday : Option String
  friday : Option String
  saturday : Option String
  sunday : Option String
deriving DecidableEq, Repr

/-- The empty `'Hours'` dict `{}`. -/
def emptyWeekHours : WeekHours :=
  ⟨none, none, none, none, none, none, none⟩

/-- The `open_hours` dict with its optional `'Currently'` and `'Hours'`
keys. -/
structure OpenHoursDict where
  currently : Option String
  hours : Option WeekHours
deriving DecidableEq, Repr

/-- The empty `open_hours` dict `{}`. -/
def emptyOpenHours : OpenHoursDict :=
  ⟨none, none⟩

/-- A populated result dict as consumed by `export_to_csv`: each field is
a dict key that may be absent (`none`).  The `coords` key, when present,
holds either Python `None` (falsy) or a latitude/longitude pair. -/
structure PlaceRecord where
  title : Option String
  address : Option String
  coords : Option (Option (String × String))
  phone_number : Option String
  website : Option String
  rating : Option String
  url : Option String
  open_hours : Option OpenHoursDict
deriving DecidableEq, Repr

/-- The fixed CSV header of `export_to_csv` (main.py lines 119-136). -/
def fieldnames : List String :=
  ["Place Name", "Address", "Latitude", "Longitude", "Phone Number",
   "Website", "Rating", "Google Maps URL", "Current Hours Status",
   "Monday Hours", "Tuesday Hours", "Wednesday Hours", "Thursday Hours",
   "Friday Hours", "Saturday Hours", "Sunday Hours"]

/-- The data row `export_to_csv` writes for one result (main.py 143-174),
in `fieldnames` order (`csv.DictWriter` orders cells by `fieldnames`). -/
def csvRow (result : PlaceRecord) : List String :=
  let coords := result.coords.getD (some ("", ""))
  let lat := match coords with | some p => p.1 | none => ""
  let lon := match coords with | some p => p.2 | none => ""
  let open_hours := result.open_hours.getD emptyOpenHours
  let hours_dict := open_hours.hours.getD emptyWeekHours
  let current_status := open_hours.currently.getD ""
  [result.title.getD "", result.address.getD "", lat, lon,
   result.phone_number.getD "", result.website.getD "",
   result.rating.getD "", result.url.getD "", current_status,
   hours_dict.monday.getD "", hours_dict.tuesday.getD "",
   hours_dict.wednesday.getD "", hours_dict.thursday.getD "",
   hours_dict.friday.getD "", hours_dict.saturday.getD "",
   hours_dict.sunday.getD ""]

/-- The output filename `f"{date_stamp}_{sanitized_query}.csv"`
(main.py lines 113-116). -/
def csvFilename (date_stamp : String) (query_string : String) : String :=
  date_stamp ++ "_" ++ sanitize_filename query_string ++ ".csv"

/-- `export_to_csv` (main.py lines 105-181): `none` models the `None`
return on empty input, where no file is created; otherwise the filename
and the emitted rows, header first. -/
def export_to_csv (date_stamp : String) (results : List PlaceRecord)
    (query_string : String) : Option (String × List (List String)) :=
  if results.isEmpty then
    none
  else
    some (csvFilename date_stamp query_string, fieldnames :: results.map csvRow)

/-- A place handle returned by `gomaps.maps_search`: the basic attributes
(`none` models a failing `hasattr` test), and `get_values` with `none`
modelling a raised exception during the detail fetch. -/
structure PlaceHandle where
  title : Option String
  url : Option String
  coords : Option (String × String)
  get_values : Option PlaceRecord
deriving DecidableEq, Repr

/-- The `basic_data` fallback dict built when `place.get_values()` raises
(main.py lines 82-91). -/
def basicData (place : PlaceHandle) : PlaceRecord :=
  ⟨some (place.title.getD ""), some "",
   some (some (place.coords.getD ("", ""))),
   some "", some "", some "", some (place.url.getD ""),
   some emptyOpenHours⟩

/-- One iteration body of the result loop (main.py lines 76-92): take the
full details when `get_values` succeeds, else the `basic_data` fallback. -/
def processPlace (place : PlaceHandle) : PlaceRecord :=
  match place.get_values with
  | some place_data => place_data
  | none => basicData place

/-- The accumulation loop of `search_places` (main.py lines 74-96): append
a record per place, breaking once the accumulator reaches `max_results`. -/
def searchLoop (max_results : Nat) : List PlaceHandle → List PlaceRecord → List PlaceRecord
  | [], acc => acc
  | place :: rest, acc =>
    let acc2 := acc ++ [processPlace place]
    if max_results ≤ acc2.length then acc2 else searchLoop max_results rest acc2

/-- `search_places` (main.py lines 57-102).  The collaborator interaction
`gomaps.maps_search(query, ...)` is passed in as `search_result`
(`Except.error` = the call raised, caught at main.py line 100). -/
def search_places (search_result : Except String (List PlaceHandle))
    (max_results : Nat) : List PlaceRecord :=
  match search_result with
  | Except.error _ => []
  | Except.ok results =>
    if results.isEmpty then []
    else searchLoop max_results results []

/-- Absence of two consecutive hyphens in a character list (the state
`re.sub(r'-+', '-', _)` leaves behind). -/
def noDoubleHyphen : List Char → Bool
  | [] => true
  | [_] => true
  | a :: b :: rest => !(a == '-' && b == '-') && noDoubleHyphen (b :: rest)

/-- Relational form of `noDoubleHyphen`, for `List.Chain'`. -/
def hyphRel (a b : Char) : Prop :=
  ¬(a = '-' ∧ b = '-')

/-- The parsed CLI arguments of `main` (main.py lines 200-233). -/
structure Args where
  query : String
  zip : Option String
  distance : Option Int
  max_results : Int
  page : Int
deriving DecidableEq, Repr

/-- Outcome of the validation phase of `main` (main.py lines 235-261):
either `parser.error` aborts with a usage message and a non-zero exit
before any search, or the search is invoked with the formatted query,
page and max-results. -/
inductive MainAction where
  | usage_error : String → MainAction
  | run_search : String → Int → Int → MainAction
deriving DecidableEq, Repr

/-- The argument validation and dispatch of `main` (main.py lines
235-261).  `if args.distance and not args.zip` is a truthiness test:
`distance=0` is falsy and skips the first check. -/
def main_validate (args : Args) : MainAction :=
  if pyIntTruthy args.distance && !(pyStrTruthy args.zip) then
    MainAction.usage_error "--distance requires --zip to be specified"
  else if args.max_results ≤ 0 then
    MainAction.usage_error "--max-results must be a positive number"
  else if args.page ≤ 0 then
    MainAction.usage_error "--page must be a positive number"
  else
    MainAction.run_search (format_location_query args.query args.zip args.distance)
      args.page args.max_results

/-! ## Character-level facts about the sanitizer -/

theorem toNat_ofNat_small (n : Nat) (h : n < 55296) : (Char.ofNat n).toNat = n := by
  have hv : n.isValidChar := Or.inl h
  simp [Char.ofNat, hv, Char.ofNatAux, Char.toNat, UInt32.toNat, BitVec.ofNatLt]

theorem pyLowerChar_of_upper (c : Char) (h : 65 ≤ c.toNat ∧ c.toNat ≤ 90) :
    pyLowerChar c = [Char.ofNat (c.toNat + 32)] := by
  unfold pyLowerChar
  rw [if_pos h]

theorem pyLowerChar_of_ascii_not_upper (c : Char) (ha : c.toNat < 128)
    (h : ¬(65 ≤ c.toNat ∧ c.toNat ≤ 90)) : pyLowerChar c = [c] := by
  unfold pyLowerChar
  rw [if_neg h, if_neg (by omega), if_neg (by omega)]

theorem mem_pyLowerChar_ascii (d c : Char) (hd : d.toNat < 128)
    (hk : keepChar d = true) (hc : c ∈ pyLowerChar d) :
    keepChar c = true ∧ pyLowerChar c = [c] ∧ c.toNat < 128 := by
  by_cases hu : 65 ≤ d.toNat ∧ d.toNat ≤ 90
  · rw [pyLowerChar_of_upper d hu] at hc
    have hcd : c = Char.ofNat (d.toNat + 32) := by simpa using hc
    subst hcd
    have ht : (Char.ofNat (d.toNat + 32)).toNat = d.toNat + 32 :=
      toNat_ofNat_small _ (by omega)
    refine ⟨?_, ?_, by omega⟩
    · unfold keepChar
      apply Bool.or_eq_true_iff.mpr
      left
      simp only [isWordChar, Bool.or_eq_true, Bool.and_eq_true,
        decide_eq_true_eq, beq_iff_eq, ht]
      omega
    · exact pyLowerChar_of_ascii_not_upper _ (by omega) (by omega)
  · rw [pyLowerChar_of_ascii_not_upper d hd hu] at hc
    have hcd : c = d := by simpa using hc
    subst hcd
    exact ⟨hk, pyLowerChar_of_ascii_not_upper c hd hu, hd⟩

theorem keepChar_ne_space (c : Char) (h : keepChar c = true) : c ≠ ' ' := by
  intro heq
  subst heq
  simp [keepChar, isWordChar] at h

/-! ## Membership facts through the sanitizer stages -/

theorem mem_collapseAux (c : Char) :
    ∀ (b : Bool) (l : List Char), c ∈ collapseAux b l → c ∈ l := by
  intro b l
  induction l generalizing b with
  | nil => simp [collapseAux]
  | cons a rest ih =>
    intro h
    simp only [collapseAux] at h
    by_cases ha : (a == '-') = true
    · rw [if_pos ha] at h
      have ha' : a = '-' := beq_iff_eq.mp ha
      subst ha'
      cases b with
      | true => exact List.mem_cons_of_mem '-' (ih true h)
      | false =>
        rcases List.mem_cons.mp h with hc | hc
        · subst hc
          exact List.mem_cons_self _ _
        · exact List.mem_cons_of_mem '-' (ih true hc)
    · rw [if_neg ha] at h
      rcases List.mem_cons.mp h with hc | hc
      · subst hc
        exact List.mem_cons_self _ _
      · exact List.mem_cons_of_mem a (ih false hc)

theorem mem_stripHyphens (c : Char) (l : List Char) (h : c ∈ stripHyphens l) :
    c ∈ l := by
  unfold stripHyphens at h
  rw [List.mem_reverse] at h
  have h2 := (List.dropWhile_suffix (fun x => x == '-')).sublist.subset h
  rw [List.mem_reverse] at h2
  exact (List.dropWhile_suffix (fun x => x == '-')).sublist.subset h2

theorem mem_replaceSpaces_ascii (s : List Char) (hs : ∀ c ∈ s, c.toNat < 128) :
    ∀ d ∈ replaceSpaces s, d.toNat < 128 := by
  intro d hd
  rcases List.mem_map.mp hd with ⟨e, he, hde⟩
  rw [← hde]
  by_cases hsp : (e == ' ') = true
  · rw [if_pos hsp]
    decide
  · rw [if_neg hsp]
    exact hs e he

theorem mem_sanitizeChars_ascii (s : List Char) (hs : ∀ c ∈ s, c.toNat < 128)
    (c : Char) (h : c ∈ sanitizeChars s) :
    keepChar c = true ∧ pyLowerChar c = [c] ∧ c.toNat < 128 := by
  unfold sanitizeChars collapseHyphens lowerAll at h
  have h1 := mem_collapseAux c false _ (mem_stripHyphens c _ h)
  rcases List.mem_flatMap.mp h1 with ⟨d, hd, hdc⟩
  have hk : keepChar d = true := (List.mem_filter.mp hd).2
  have hda : d.toNat < 128 :=
    mem_replaceSpaces_ascii s hs d (List.mem_filter.mp hd).1
  exact mem_pyLowerChar_ascii d c hda hk hdc

/-! ## The no-double-hyphen invariant -/

theorem noDoubleHyphen_cons_iff (a : Char) (l : List Char) :
    noDoubleHyphen (a :: l) = true ↔
      ((l.head? = some '-' → a ≠ '-') ∧ noDoubleHyphen l = true) := by
  cases l with
  | nil => simp [noDoubleHyphen]
  | cons b rest =>
    simp only [noDoubleHyphen, List.head?, Bool.and_eq_true, Bool.not_eq_true',
      Bool.and_eq_false_iff, beq_eq_false_iff_ne, Option.some.injEq]
    constructor
    · rintro ⟨hab, hdd⟩
      refine ⟨fun hb ha => ?_, hdd⟩
      subst hb
      rcases hab with h | h
      · exact h ha
      · exact h rfl
    · rintro ⟨hab, hdd⟩
      refine ⟨?_, hdd⟩
      by_cases hb : b = '-'
      · exact Or.inl (hab hb)
      · exact Or.inr hb

theorem head?_collapseAux_true :
    ∀ l : List Char, (collapseAux true l).head? ≠ some '-' := by
  intro l
  induction l with
  | nil => simp [collapseAux]
  | cons a rest ih =>
    simp only [collapseAux]
    by_cases ha : (a == '-') = true
    · rw [if_pos ha]
      exact ih
    · rw [if_neg ha]
      intro h
      exact ha (beq_iff_eq.mpr (Option.some.inj h))

theorem noDoubleHyphen_collapseAux :
    ∀ (l : List Char) (b : Bool), noDoubleHyphen (collapseAux b l) = true := by
  intro l
  induction l with
  | nil => intro b; simp [collapseAux, noDoubleHyphen]
  | cons a rest ih =>
    intro b
    simp only [collapseAux]
    by_cases ha : (a == '-') = true
    · rw [if_pos ha]
      cases b with
      | true => exact ih true
      | false =>
        rw [if_neg (by simp)]
        rw [noDoubleHyphen_cons_iff]
        exact ⟨fun h _ => (head?_collapseAux_true rest h).elim, ih true⟩
    · rw [if_neg ha]
      rw [noDoubleHyphen_cons_iff]
      exact ⟨fun _ h => ha (beq_iff_eq.mpr h), ih false⟩

theorem noDoubleHyphen_iff_chain (l : List Char) :
    noDoubleHyphen l = true ↔ List.Chain' hyphRel l := by
  induction l with
  | nil => simp [noDoubleHyphen]
  | cons a rest ih =>
    rw [noDoubleHyphen_cons_iff, List.chain'_cons', ih]
    constructor
    · rintro ⟨hh, hc⟩
      refine ⟨?_, hc⟩
      intro y hy
      rintro ⟨ha, hy'⟩
      subst hy'
      cases rest with
      | nil => exact Option.noConfusion hy
      | cons b r =>
        have : b = '-' := by
          simpa using hy
        exact hh (by simp [this]) ha
    · rintro ⟨hh, hc⟩
      refine ⟨?_, hc⟩
      intro hhy ha
      cases rest with
      | nil => exact Option.noConfusion hhy
      | cons b r =>
        have hb : b = '-' := by
          simpa using hhy
        exact hh b (by simp) ⟨ha, hb⟩

theorem noDoubleHyphen_of_suffix (l1 l2 : List Char)
    (h : noDoubleHyphen l2 = true) (hs : l1 <:+ l2) :
    noDoubleHyphen l1 = true := by
  rw [noDoubleHyphen_iff_chain] at h ⊢
  exact h.suffix hs

theorem noDoubleHyphen_reverse (l : List Char)
    (h : noDoubleHyphen l = true) : noDoubleHyphen l.reverse = true := by
  rw [noDoubleHyphen_iff_chain] at h ⊢
  rw [List.chain'_reverse]
  refine List.Chain'.imp ?_ h
  rintro a b hab ⟨h1, h2⟩
  exact hab ⟨h2, h1⟩

theorem noDoubleHyphen_stripHyphens (l : List Char)
    (h : noDoubleHyphen l = true) : noDoubleHyphen (stripHyphens l) = true := by
  unfold stripHyphens
  apply noDoubleHyphen_reverse
  refine noDoubleHyphen_of_suffix _ _ ?_ (List.dropWhile_suffix _)
  apply noDoubleHyphen_reverse
  exact noDoubleHyphen_of_suffix _ _ h (List.dropWhile_suffix _)

/-! ## Head and last of the sanitizer output -/

theorem head?_dropWhile_false (p : Char → Bool) (l : List Char) :
    ∀ c, (l.dropWhile p).head? = some c → p c = false := by
  induction l with
  | nil => intro c h; exact Option.noConfusion h
  | cons a rest ih =>
    intro c h
    by_cases hp : p a = true
    · rw [List.dropWhile_cons_of_pos hp] at h
      exact ih c h
    · rw [List.dropWhile_cons_of_neg hp] at h
      simp only [List.head?, Option.some.injEq] at h
      subst h
      exact Bool.eq_false_iff.mpr hp

theorem getLast?_dropWhile_of_some (p : Char → Bool) (l : List Char) (c : Char)
    (h : (l.dropWhile p).getLast? = some c) : l.getLast? = some c := by
  obtain ⟨pre, hpre⟩ := (List.dropWhile_suffix p : l.dropWhile p <:+ l)
  cases hdw : l.dropWhile p with
  | nil =>
    rw [hdw] at h
    exact Option.noConfusion h
  | cons a t =>
    rw [hdw] at h hpre
    rw [← hpre, List.getLast?_append_of_ne_nil pre (by simp)]
    exact h

theorem stripHyphens_head? (l : List Char) :
    ∀ c, (stripHyphens l).head? = some c → c ≠ '-' := by
  intro c h
  unfold stripHyphens at h
  rw [List.head?_reverse] at h
  have h2 := getLast?_dropWhile_of_some (fun x => x == '-') _ c h
  rw [List.getLast?_reverse] at h2
  have h3 := head?_dropWhile_false (fun x => x == '-') l c h2
  simp only [beq_eq_false_iff_ne] at h3
  exact h3

theorem stripHyphens_getLast? (l : List Char) :
    ∀ c, (stripHyphens l).getLast? = some c → c ≠ '-' := by
  intro c h
  unfold stripHyphens at h
  rw [List.getLast?_reverse] at h
  have h3 := head?_dropWhile_false (fun x => x == '-') _ c h
  simp only [beq_eq_false_iff_ne] at h3
  exact h3

/-! ## Each sanitizer stage fixes its own output -/

theorem replaceSpaces_eq_self (l : List Char) (h : ∀ c ∈ l, c ≠ ' ') :
    replaceSpaces l = l := by
  induction l with
  | nil => rfl
  | cons a rest ih =>
    have ha : (a == ' ') = false :=
      beq_eq_false_iff_ne.mpr (h a (List.mem_cons_self a rest))
    simp only [replaceSpaces, List.map_cons, ha, if_false, List.cons.injEq]
    exact ⟨rfl, ih fun c hc => h c (List.mem_cons_of_mem a hc)⟩

theorem removeSpecial_eq_self (l : List Char) (h : ∀ c ∈ l, keepChar c = true) :
    removeSpecial l = l :=
  List.filter_eq_self.mpr h

theorem lowerAll_eq_self (l : List Char) (h : ∀ c ∈ l, pyLowerChar c = [c]) :
    lowerAll l = l := by
  induction l with
  | nil => rfl
  | cons a rest ih =>
    simp only [lowerAll, List.flatMap_cons] at ih ⊢
    rw [h a (List.mem_cons_self a rest),
      ih fun c hc => h c (List.mem_cons_of_mem a hc)]
    rfl

theorem collapseAux_eq_self :
    ∀ (l : List Char) (b : Bool), noDoubleHyphen l = true →
      (b = true → l.head? ≠ some '-') → collapseAux b l = l := by
  intro l
  induction l with
  | nil => intro b _ _; rfl
  | cons a rest ih =>
    intro b hdd hb
    rcases (noDoubleHyphen_cons_iff a rest).mp hdd with ⟨hhd, hdd'⟩
    simp only [collapseAux]
    by_cases ha : (a == '-') = true
    · have ha' : a = '-' := beq_iff_eq.mp ha
      rw [if_pos ha]
      cases b with
      | true =>
        exact absurd (by simp [ha']) (hb rfl)
      | false =>
        rw [if_neg (by simp)]
        rw [ha']
        rw [ih true hdd' fun _ hhd' => (hhd hhd') ha']
    · rw [if_neg ha]
      rw [ih false hdd' (by simp)]

theorem dropWhile_eq_self_of_head (p : Char → Bool) (l : List Char)
    (h : ∀ c, l.head? = some c → p c = false) : l.dropWhile p = l := by
  cases l with
  | nil => rfl
  | cons a rest =>
    exact List.dropWhile_cons_of_neg (by rw [h a rfl]; simp)

theorem stripHyphens_eq_self (l : List Char)
    (h1 : ∀ c, l.head? = some c → c ≠ '-')
    (h2 : ∀ c, l.getLast? = some c → c ≠ '-') : stripHyphens l = l := by
  unfold stripHyphens
  rw [dropWhile_eq_self_of_head _ l
    fun c hc => beq_eq_false_iff_ne.mpr (h1 c hc)]
  rw [dropWhile_eq_self_of_head _ l.reverse
    fun c hc => beq_eq_false_iff_ne.mpr (h2 c (by rwa [List.head?_reverse] at hc))]
  exact List.reverse_reverse l

/-! ## Idempotence and the output invariant assembled -/

theorem sanitizeChars_fixed (l : List Char)
    (hkeep : ∀ c ∈ l, keepChar c = true) (hlow : ∀ c ∈ l, pyLowerChar c = [c])
    (hdd : noDoubleHyphen l = true)
    (hh : ∀ c, l.head? = some c → c ≠ '-')
    (hl : ∀ c, l.getLast? = some c → c ≠ '-') :
    sanitizeChars l = l := by
  unfold sanitizeChars collapseHyphens
  rw [replaceSpaces_eq_self l fun c hc => keepChar_ne_space c (hkeep c hc)]
  rw [removeSpecial_eq_self l hkeep]
  rw [lowerAll_eq_self l hlow]
  rw [collapseAux_eq_self l false hdd (by simp)]
  exact stripHyphens_eq_self l hh hl

theorem sanitizeChars_noDD (s : List Char) :
    noDoubleHyphen (sanitizeChars s) = true := by
  unfold sanitizeChars collapseHyphens
  exact noDoubleHyphen_stripHyphens _ (noDoubleHyphen_collapseAux _ false)

theorem sanitizeChars_head? (s : List Char) :
    ∀ c, (sanitizeChars s).head? = some c → c ≠ '-' :=
  stripHyphens_head? _

theorem sanitizeChars_getLast? (s : List Char) :
    ∀ c, (sanitizeChars s).getLast? = some c → c ≠ '-' :=
  stripHyphens_getLast? _

theorem sanitizeChars_idem_ascii (s : List Char) (hs : ∀ c ∈ s, c.toNat < 128) :
    sanitizeChars (sanitizeChars s) = sanitizeChars s :=
  sanitizeChars_fixed (sanitizeChars s)
    (fun c hc => (mem_sanitizeChars_ascii s hs c hc).1)
    (fun c hc => (mem_sanitizeChars_ascii s hs c hc).2.1)
    (sanitizeChars_noDD s) (sanitizeChars_head? s) (sanitizeChars_getLast? s)

/-! ## Sanitizing a string of non-word, non-space characters -/

theorem removeSpecial_all_hyphen (l : List Char)
    (h : ∀ c ∈ l, isWordChar c = false) :
    ∀ c ∈ removeSpecial l, c = '-' := by
  intro c hc
  rcases List.mem_filter.mp hc with ⟨hcl, hk⟩
  unfold keepChar at hk
  rw [h c hcl] at hk
  simp only [Bool.false_or] at hk
  exact beq_iff_eq.mp hk

theorem collapseAux_true_all_hyphen :
    ∀ l : List Char, (∀ c ∈ l, c = '-') → collapseAux true l = [] := by
  intro l
  induction l with
  | nil => intro _; rfl
  | cons a rest ih =>
    intro h
    have ha : (a == '-') = true := beq_iff_eq.mpr (h a (List.mem_cons_self a rest))
    simp only [collapseAux, if_pos ha, if_pos]
    exact ih fun c hc => h c (List.mem_cons_of_mem a hc)

theorem strip_collapse_all_hyphen (l : List Char) (h : ∀ c ∈ l, c = '-') :
    stripHyphens (collapseAux false l) = [] := by
  cases l with
  | nil => rfl
  | cons a rest =>
    have ha : (a == '-') = true := beq_iff_eq.mpr (h a (List.mem_cons_self a rest))
    simp only [collapseAux, if_pos ha, if_neg (by simp : ¬(false = true))]
    rw [collapseAux_true_all_hyphen rest fun c hc => h c (List.mem_cons_of_mem a hc)]
    rfl

theorem sanitizeChars_all_special (l : List Char)
    (h : ∀ c ∈ l, isWordChar c = false ∧ c ≠ ' ') :
    sanitizeChars l = [] := by
  unfold sanitizeChars collapseHyphens lowerAll
  rw [replaceSpaces_eq_self l fun c hc => (h c hc).2]
  apply strip_collapse_all_hyphen
  intro c hc
  rcases List.mem_flatMap.mp hc with ⟨d, hd, hdc⟩
  have hd' : d = '-' :=
    removeSpecial_all_hyphen l (fun x hx => (h x hx).1) d hd
  subst hd'
  have hlow : pyLowerChar '-' = ['-'] := by decide
  rw [hlow] at hdc
  simpa using hdc

/-! ## The search loop: truncation and per-place processing -/

theorem searchLoop_eq (l : List PlaceHandle) :
    ∀ (acc : List PlaceRecord) (mr : Nat), acc.length < mr →
      searchLoop mr l acc = acc ++ (l.take (mr - acc.length)).map processPlace := by
  induction l with
  | nil =>
    intro acc mr _
    simp [searchLoop]
  | cons p rest ih =>
    intro acc mr h
    simp only [searchLoop]
    by_cases hle : mr ≤ (acc ++ [processPlace p]).length
    · rw [if_pos hle]
      rw [List.length_append, List.length_singleton] at hle
      have h1 : mr - acc.length = 1 := by omega
      rw [h1]
      simp
    · rw [if_neg hle]
      rw [List.length_append, List.length_singleton] at hle
      rw [ih (acc ++ [processPlace p]) mr (by rw [List.length_append, List.length_singleton]; omega)]
      have h2 : mr - acc.length = (mr - (acc.length + 1)) + 1 := by omega
      rw [h2, List.take_succ_cons, List.map_cons, List.length_append, List.length_singleton]
      simp

theorem search_places_ok (ps : List PlaceHandle) (mr : Nat) (h : 1 ≤ mr) :
    search_places (Except.ok ps) mr = (ps.take mr).map processPlace := by
  cases ps with
  | nil => simp [search_places]
  | cons p rest =>
    show (if (p :: rest).isEmpty then [] else searchLoop mr (p :: rest) []) = _
    rw [if_neg (by simp)]
    rw [searchLoop_eq (p :: rest) [] mr (by simpa using h)]
    simp

/-! ## Claims -/

/-- C1, counterexample: with a present-but-empty zip code (`--zip ""`),
Python's `if zip_code:` is falsy, so the formatter returns the base query
unchanged instead of the claimed `"{q} near {Z}"`. -/
theorem c1_format_query_counterexample :
    format_location_query "a" (some "") none = "a" ∧
    format_location_query "a" (some "") none ≠ "a" ++ " near " ++ "" := by
  decide

/-- C1 (amended): the query formatter returns `q` unchanged when the zip
code is absent (for any distance); returns `"{q} near {Z}"` when a
nonempty zip code `Z` is present and the distance is absent; and returns
`"{q} within {D} miles of {Z}"` when a nonempty `Z` and a positive `D`
are both present. -/
theorem c1_format_location_query :
    (∀ (q : String) (d : Option Int), format_location_query q none d = q) ∧
    (∀ (q z : String), z ≠ "" →
      format_location_query q (some z) none = q ++ " near " ++ z) ∧
    (∀ (q z : String) (d : Int), z ≠ "" → 0 < d →
      format_location_query q (some z) (some d) =
        q ++ " within " ++ toString d ++ " miles of " ++ z) := by
  refine ⟨?_, ?_, ?_⟩
  · intro q d
    rfl
  · intro q z hz
    have ht : pyStrTruthy (some z) = true := by
      simp [pyStrTruthy, hz]
    simp [format_location_query, ht, pyIntTruthy]
  · intro q z d hz hd
    have ht : pyStrTruthy (some z) = true := by
      simp [pyStrTruthy, hz]
    have htd : pyIntTruthy (some d) = true := by
      simp [pyIntTruthy]
      omega
    simp [format_location_query, ht, htd]

/-- C1, witness: the amended theorem applied at the spec's examples. -/
theorem c1_format_location_query_witness :
    format_location_query "restaurants" (some "10001") none = "restaurants near 10001" ∧
    format_location_query "hiking trails" (some "94025") (some 10) =
      "hiking trails within 10 miles of 94025" := by
  constructor
  · rw [c1_format_location_query.2.1 "restaurants" "10001" (by decide)]
    decide
  · rw [c1_format_location_query.2.2 "hiking trails" "94025" 10 (by decide) (by decide)]
    decide

/-- C2: the CSV row of a fully populated record has exactly 16 values in
the fixed column order, each equal to the documented source field; the
header row comes first and there is one data row per input record in
input order. -/
theorem c2_export_row_mapping :
    ∀ (t a la lo ph w ra u cur mo tu we th fr sa su date q : String)
      (rs : List PlaceRecord) (r : PlaceRecord),
    (csvRow ⟨some t, some a, some (some (la, lo)), some ph, some w, some ra,
        some u, some ⟨some cur,
          some ⟨some mo, some tu, some we, some th, some fr, some sa, some su⟩⟩⟩ =
      [t, a, la, lo, ph, w, ra, u, cur, mo, tu, we, th, fr, sa, su]) ∧
    (csvRow r).length = 16 ∧
    (rs ≠ [] → export_to_csv date rs q =
      some (csvFilename date q,
        ["Place Name", "Address", "Latitude", "Longitude", "Phone Number",
         "Website", "Rating", "Google Maps URL", "Current Hours Status",
         "Monday Hours", "Tuesday Hours", "Wednesday Hours", "Thursday Hours",
         "Friday Hours", "Saturday Hours", "Sunday Hours"] :: rs.map csvRow)) := by
  intro t a la lo ph w ra u cur mo tu we th fr sa su date q rs r
  refine ⟨rfl, by simp [csvRow], ?_⟩
  intro hrs
  cases rs with
  | nil => exact absurd rfl hrs
  | cons r0 rest => rfl

/-- C2, witness: the mapping theorem applied at one concrete record. -/
theorem c2_export_row_mapping_witness :
    export_to_csv "20261012"
        [⟨some "T", some "A", some (some ("1", "2")), some "P", some "W",
          some "4.5", some "U", some ⟨some "Open",
            some ⟨some "8-5", some "8-5", some "8-5", some "8-5", some "8-5",
              some "9-1", some "closed"⟩⟩⟩] "pizza" =
      some (csvFilename "20261012" "pizza",
        ["Place Name", "Address", "Latitude", "Longitude", "Phone Number",
         "Website", "Rating", "Google Maps URL", "Current Hours Status",
         "Monday Hours", "Tuesday Hours", "Wednesday Hours", "Thursday Hours",
         "Friday Hours", "Saturday Hours", "Sunday Hours"] ::
          [⟨some "T", some "A", some (some ("1", "2")), some "P", some "W",
            some "4.5", some "U", some ⟨some "Open",
              some ⟨some "8-5", some "8-5", some "8-5", some "8-5", some "8-5",
                some "9-1", some "closed"⟩⟩⟩].map csvRow) :=
  (c2_export_row_mapping "T" "A" "1" "2" "P" "W" "4.5" "U" "Open" "8-5" "8-5"
    "8-5" "8-5" "8-5" "9-1" "closed" "20261012" "pizza" _
    ⟨none, none, none, none, none, none, none, none⟩).2.2 (by decide)

/-- C3: for every list of places returned by the collaborator and every
`max_results ≥ 1`, `search_places` produces at most `max_results`
records; with 30 places and `max_results = 5`, exactly 5 are produced. -/
theorem c3_search_places_truncation :
    ∀ (ps : List PlaceHandle) (mr : Nat), 1 ≤ mr →
    (search_places (Except.ok ps) mr).length ≤ mr ∧
    (ps.length = 30 → (search_places (Except.ok ps) 5).length = 5) := by
  intro ps mr h
  constructor
  · rw [search_places_ok ps mr h]
    simp only [List.length_map, List.length_take]
    omega
  · intro h30
    rw [search_places_ok ps 5 (by omega)]
    simp only [List.length_map, List.length_take, h30]
    decide

/-- C3, witness: a collaborator returning 30 places with `max_results = 5`
yields exactly 5 records. -/
theorem c3_search_places_truncation_witness :
    (search_places (Except.ok
      (List.replicate 30 (⟨none, none, none, none⟩ : PlaceHandle))) 5).length = 5 :=
  (c3_search_places_truncation
    (List.replicate 30 (⟨none, none, none, none⟩ : PlaceHandle)) 5
    (by decide)).2 (by simp)

/-- C4, counterexample: `--distance 0` without `--zip` is distance
provided without zip code, yet `if args.distance and not args.zip` is
falsy at 0, so no usage error is raised and the search IS invoked. -/
theorem c4_cli_validation_counterexample :
    main_validate ⟨"q", none, some 0, 20, 1⟩ = MainAction.run_search "q" 1 20 := by
  decide

/-- C4 (amended): a nonzero distance provided without a zip code, or
`max_results ≤ 0`, or `page ≤ 0`, makes the driver abort with a usage
error (`MainAction.usage_error`, which models `parser.error`: usage
message, non-zero exit, search never invoked). -/
theorem c4_cli_validation :
    ∀ (args : Args),
    ((∃ d, args.distance = some d ∧ d ≠ 0) ∧ args.zip = none) ∨
      args.max_results ≤ 0 ∨ args.page ≤ 0 →
    ∃ msg, main_validate args = MainAction.usage_error msg := by
  intro args h
  by_cases h1 : (pyIntTruthy args.distance && !(pyStrTruthy args.zip)) = true
  · exact ⟨_, by unfold main_validate; rw [if_pos h1]⟩
  · by_cases h2 : args.max_results ≤ 0
    · exact ⟨_, by unfold main_validate; rw [if_neg h1, if_pos h2]⟩
    · by_cases h3 : args.page ≤ 0
      · exact ⟨_, by unfold main_validate; rw [if_neg h1, if_neg h2, if_pos h3]⟩
      · exfalso
        rcases h with ⟨⟨d, hd, hd0⟩, hz⟩ | hmr | hpg
        · apply h1
          rw [hd, hz]
          simp [pyIntTruthy, pyStrTruthy, hd0]
        · exact h2 hmr
        · exact h3 hpg

/-- C4, witness: `--distance 5` without `--zip` yields a usage error. -/
theorem c4_cli_validation_witness :
    ∃ msg, main_validate ⟨"q", none, some 5, 20, 1⟩ = MainAction.usage_error msg :=
  c4_cli_validation ⟨"q", none, some 5, 20, 1⟩
    (Or.inl ⟨⟨5, rfl, by decide⟩, rfl⟩)

/-- C5: when a place's detail fetch fails (`get_values = none`), the loop
still appends a record built from the handle's basic fields (title, url,
coords, each defaulting to the empty string or pair), with empty strings
for address, website, phone and rating and an empty hours mapping, and
the loop continues over the remaining places. -/
theorem c5_degraded_record :
    ∀ (ps : List PlaceHandle) (mr : Nat) (p : PlaceHandle),
    1 ≤ mr → p ∈ ps.take mr → p.get_values = none →
    (⟨some (p.title.getD ""), some "", some (some (p.coords.getD ("", ""))),
      some "", some "", some "", some (p.url.getD ""),
      some ⟨none, none⟩⟩ : PlaceRecord) ∈ search_places (Except.ok ps) mr ∧
    search_places (Except.ok ps) mr = (ps.take mr).map processPlace := by
  intro ps mr p h1 hp hgv
  have heq := search_places_ok ps mr h1
  refine ⟨?_, heq⟩
  rw [heq]
  have hpp : processPlace p =
      ⟨some (p.title.getD ""), some "", some (some (p.coords.getD ("", ""))),
        some "", some "", some "", some (p.url.getD ""), some ⟨none, none⟩⟩ := by
    simp [processPlace, hgv, basicData, emptyOpenHours]
  rw [← hpp]
  exact List.mem_map_of_mem processPlace hp

/-- C5, witness: a handle whose detail fetch fails contributes its
degraded record to the output. -/
theorem c5_degraded_record_witness :
    (⟨some "T", some "", some (some ("1", "2")), some "", some "", some "",
      some "U", some ⟨none, none⟩⟩ : PlaceRecord) ∈
      search_places (Except.ok
        [(⟨some "T", some "U", some ("1", "2"), none⟩ : PlaceHandle)]) 1 :=
  (c5_degraded_record [⟨some "T", some "U", some ("1", "2"), none⟩] 1
    ⟨some "T", some "U", some ("1", "2"), none⟩
    (by decide) (by decide) rfl).1

/-- C6: an exception raised by the collaborator (`Except.error`) and an
empty collaborator result both make `search_places` return the empty
list; no exception propagates (the function is total). -/
theorem c6_search_failure_empty :
    ∀ (e : String) (mr : Nat),
    search_places (Except.error e) mr = [] ∧
    search_places (Except.ok []) mr = [] := by
  intro e mr
  exact ⟨rfl, rfl⟩

/-- C7: exporting an empty result list returns `none` (Python `None`),
and the no-file branch is taken before any file content is built. -/
theorem c7_export_empty_none :
    ∀ (date q : String), export_to_csv date [] q = none := by
  intro date q
  rfl

/-- C8: a record with `coords = None` and `open_hours = {}` yields empty
Latitude, Longitude, Current Hours Status and weekday cells; a missing
`coords` key defaults to `("","")`, a missing `open_hours` key defaults
to `{}`, and a record with every key missing yields 16 empty cells. -/
theorem c8_missing_field_defaults :
    ∀ (r r2 : PlaceRecord),
    (r.coords = some none → r.open_hours = some ⟨none, none⟩ →
      csvRow r = [r.title.getD "", r.address.getD "", "", "",
        r.phone_number.getD "", r.website.getD "", r.rating.getD "",
        r.url.getD "", "", "", "", "", "", "", "", ""]) ∧
    (csvRow ⟨r2.title, r2.address, none, r2.phone_number, r2.website,
        r2.rating, r2.url, r2.open_hours⟩ =
      csvRow ⟨r2.title, r2.address, some (some ("", "")), r2.phone_number,
        r2.website, r2.rating, r2.url, r2.open_hours⟩) ∧
    (csvRow ⟨r2.title, r2.address, r2.coords, r2.phone_number, r2.website,
        r2.rating, r2.url, none⟩ =
      csvRow ⟨r2.title, r2.address, r2.coords, r2.phone_number, r2.website,
        r2.rating, r2.url, some ⟨none, none⟩⟩) ∧
    (csvRow ⟨none, none, none, none, none, none, none, none⟩ =
      ["", "", "", "", "", "", "", "", "", "", "", "", "", "", "", ""]) := by
  intro r r2
  refine ⟨?_, rfl, rfl, rfl⟩
  intro h1 h2
  simp [csvRow, h1, h2, emptyOpenHours, emptyWeekHours]

/-- C8, witness: the defaulting theorem applied at a concrete record with
`coords = None` and `open_hours = {}`. -/
theorem c8_missing_field_defaults_witness :
    csvRow ⟨some "T", some "A", some none, some "P", some "W", some "4.5",
        some "U", some ⟨none, none⟩⟩ =
      ["T", "A", "", "", "P", "W", "4.5", "U", "", "", "", "", "", "", "", ""] :=
  (c8_missing_field_defaults
    ⟨some "T", some "A", some none, some "P", some "W", some "4.5",
      some "U", some ⟨none, none⟩⟩
    ⟨none, none, none, none, none, none, none, none⟩).1 rfl rfl

/-- C9, counterexample: filename sanitization is not idempotent for every
string.  Python's `\w` keeps `İ` (U+0130, a Unicode letter), and
`str.lower()` expands it to `i` followed by the combining dot above
U+0307; a second sanitization pass removes U+0307, which is a combining
mark and not a `\w` character, so
`sanitize(sanitize("İ")) = "i"` differs from `sanitize("İ") = "i"+U+0307`. -/
theorem c9_sanitize_idempotent_counterexample :
    sanitize_filename (String.mk [Char.ofNat 304]) =
      String.mk [Char.ofNat 105, Char.ofNat 775] ∧
    sanitize_filename (sanitize_filename (String.mk [Char.ofNat 304])) =
      String.mk [Char.ofNat 105] ∧
    sanitize_filename (sanitize_filename (String.mk [Char.ofNat 304])) ≠
      sanitize_filename (String.mk [Char.ofNat 304]) := by
  decide

/-- C9 (amended): filename sanitization is idempotent on ASCII queries:
for every string whose characters have code points below 128,
`sanitize_filename (sanitize_filename s) = sanitize_filename s`. -/
theorem c9_sanitize_filename_idempotent :
    ∀ s : String, (∀ c ∈ s.data, c.toNat < 128) →
    sanitize_filename (sanitize_filename s) = sanitize_filename s := by
  intro s hs
  show String.mk (sanitizeChars (sanitizeChars s.data)) = String.mk (sanitizeChars s.data)
  rw [sanitizeChars_idem_ascii s.data hs]

/-- C9, witness: the amended theorem applied at a concrete ASCII query. -/
theorem c9_sanitize_filename_idempotent_witness :
    sanitize_filename (sanitize_filename "Coffee Shops!!") =
      sanitize_filename "Coffee Shops!!" :=
  c9_sanitize_filename_idempotent "Coffee Shops!!" (by decide)

/-- C10, counterexample: on this code the sanitized output is not always
made of word characters and hyphens.  Sanitizing `İ` (U+0130, kept by
`\w` and lowercased by Python to `i` plus the combining dot above)
leaves U+0307 in the output, and the combining dot above is neither a
word character (Python's `\w` does not match category Mn) nor a hyphen
nor a space. -/
theorem c10_sanitize_invariants_counterexample :
    Char.ofNat 775 ∈ (sanitize_filename (String.mk [Char.ofNat 304])).data ∧
    isWordChar (Char.ofNat 775) = false ∧
    Char.ofNat 775 ≠ '-' ∧ Char.ofNat 775 ≠ ' ' := by
  decide

/-- C10 (amended): for every ASCII query (code points below 128), every
character of the sanitized filename is a word character or a hyphen (in
particular not a space), the output never has two consecutive hyphens
and never starts or ends with one; an ASCII query of only non-word,
non-space characters sanitizes to the empty string, so the output file
is named `"{date}_.csv"`. -/
theorem c10_sanitize_output_invariants :
    ∀ (s date : String), (∀ c ∈ s.data, c.toNat < 128) →
    (∀ c ∈ (sanitize_filename s).data, (isWordChar c = true ∨ c = '-') ∧ c ≠ ' ') ∧
    noDoubleHyphen (sanitize_filename s).data = true ∧
    (∀ c, (sanitize_filename s).data.head? = some c → c ≠ '-') ∧
    (∀ c, (sanitize_filename s).data.getLast? = some c → c ≠ '-') ∧
    ((∀ c ∈ s.data, isWordChar c = false ∧ c ≠ ' ') →
      sanitize_filename s = "" ∧ csvFilename date s = date ++ "_.csv") := by
  intro s date hs
  have hdata : (sanitize_filename s).data = sanitizeChars s.data := rfl
  refine ⟨?_, ?_, ?_, ?_, ?_⟩
  · intro c hc
    rw [hdata] at hc
    have hk := (mem_sanitizeChars_ascii s.data hs c hc).1
    constructor
    · unfold keepChar at hk
      rcases Bool.or_eq_true_iff.mp hk with hw | hh
      · exact Or.inl hw
      · exact Or.inr (beq_iff_eq.mp hh)
    · exact keepChar_ne_space c hk
  · rw [hdata]
    exact sanitizeChars_noDD s.data
  · rw [hdata]
    exact sanitizeChars_head? s.data
  · rw [hdata]
    exact sanitizeChars_getLast? s.data
  · intro hall
    have hz : sanitize_filename s = "" := by
      show String.mk (sanitizeChars s.data) = ""
      rw [sanitizeChars_all_special s.data hall]
    refine ⟨hz, ?_⟩
    unfold csvFilename
    rw [hz, String.append_empty, String.append_assoc]
    exact congrArg (fun t => date ++ t) (by decide : ("_" : String) ++ ".csv" = "_.csv")

/-- C10, witness: the amended theorem applied at concrete ASCII queries. -/
theorem c10_sanitize_output_invariants_witness :
    ((isWordChar 'c' = true ∨ 'c' = '-') ∧ 'c' ≠ ' ') ∧
    sanitize_filename "@#$%" = "" ∧
    csvFilename "20261012" "@#$%" = "20261012" ++ "_.csv" :=
  ⟨(c10_sanitize_output_invariants "Coffee Shops!!" "x" (by decide)).1 'c' (by decide),
   (c10_sanitize_output_invariants "@#$%" "20261012" (by decide)).2.2.2.2 (by decide)⟩
